import Mathlib

/-!
Verification of the bitchatx core: the bounded time-ordered per-channel
message/participant store (`src/channels/mod.rs`), the channel registry
(`src/channels/manager.rs`), the spam classifier with its auto-mute state
machine (`src/app.rs`), and the geo relay directory
(`src/nostr/georelay_directory.rs`).

Modelling conventions:
* `chrono::DateTime<Utc>` timestamps are embedded as `Int` (seconds).
* `std::time::Instant` values are embedded as `Nat` (seconds on a monotonic
  clock); `Instant::duration_since`/`elapsed` is Nat subtraction (saturating,
  matching the saturating behaviour of `duration_since`).
* Rust `HashMap` is embedded as a function `key → Option value`, since the
  filter and the channel store use it only through `get`/`get_mut`/`insert`/
  `remove`/`retain`.  The `ChannelManager` map, whose iteration order feeds a
  stable sort, is embedded as an association list instead.
* String content is embedded as its UTF-8 byte list (`List Nat`); character
  classification (`is_uppercase`, `is_alphabetic`, `to_lowercase`) is the
  ASCII fragment of the Rust Unicode predicates, under which bytes and chars
  coincide.
-/

/-- `HashMap::insert` on a function-embedded map. -/
def updMap [DecidableEq α] (m : α → Option β) (k : α) (v : β) : α → Option β :=
  fun x => if x = k then some v else m x

/-- `HashMap::remove` on a function-embedded map. -/
def delMap [DecidableEq α] (m : α → Option β) (k : α) : α → Option β :=
  fun x => if x = k then none else m x

/-- The empty map (`HashMap::new`). -/
def emptyMap : α → Option β := fun _ => none

/-- `src/channels/message.rs`: the `Message` record. `content` is the UTF-8
byte list of the Rust string. -/
structure Message where
  channel : String
  nickname : String
  content : List Nat
  timestamp : Int
  pubkey : Option String
  is_own : Bool
  is_private : Bool
  recipient_pubkey : Option String
deriving DecidableEq

/-- `src/channels/mod.rs`: the `Participant` record. -/
structure Participant where
  nickname : String
  pubkey : Option String
  last_seen : Int
  message_count : Nat
deriving DecidableEq

/-- `src/channels/mod.rs`: the `Channel` record. -/
structure Channel where
  name : String
  geohash : String
  messages : List Message
  participants : String → Option Participant
  last_activity : Int
  is_joined : Bool

/-- `Channel::new` (`now` stands for the `chrono::Utc::now()` call). -/
def Channel.new (geohash : String) (now : Int) : Channel :=
  { name := "#" ++ geohash
    geohash := geohash
    messages := []
    participants := emptyMap
    last_activity := now
    is_joined := false }

/-- `Channel::new_joined`. -/
def Channel.new_joined (geohash : String) (now : Int) : Channel :=
  { Channel.new geohash now with is_joined := true }

/-- The loop of Rust `slice::binary_search_by` (comparator
`existing.timestamp.cmp(&message.timestamp)`), specialised to a key list.
`fuel` is a structural-recursion bound; any `fuel ≥ size` computes the loop's
result, and callers pass `fuel = size`. -/
def bsLoop (keys : List Int) (t : Int) : Nat → Nat → Nat → Nat
  | 0, base, _ => base
  | fuel + 1, base, size =>
    if size ≤ 1 then base
    else
      let half := size / 2
      let mid := base + half
      if t < keys.getD mid 0 then bsLoop keys t fuel base (size - half)
      else bsLoop keys t fuel mid (size - half)

/-- `binary_search_by(...).unwrap_or_else(|e| e)` from `Channel::add_message`:
the index at which the new timestamp is spliced in. -/
def bsInsertPos (keys : List Int) (t : Int) : Nat :=
  if keys.length = 0 then 0
  else
    let b := bsLoop keys t keys.length 0 keys.length
    let k := keys.getD b 0
    if k = t then b
    else if k < t then b + 1
    else b

/-- The message-insertion step of `Channel::add_message` (lines 75-87):
append when the new timestamp is at least the last stored one (also when the
store is empty), otherwise splice at the binary-search insertion point. -/
def insertOrdered (msgs : List Message) (msg : Message) : List Message :=
  match msgs.getLast? with
  | none => msgs ++ [msg]
  | some last =>
      if last.timestamp ≤ msg.timestamp then msgs ++ [msg]
      else
        List.insertIdx (bsInsertPos (msgs.map Message.timestamp) msg.timestamp)
          msg msgs

/-- The retention step of `Channel::add_message` (lines 90-95): one bulk
`drain` of the oldest excess messages whenever more than 250 are stored. -/
def drainTo250 (msgs : List Message) : List Message :=
  if 250 < msgs.length then msgs.drop (msgs.length - 250) else msgs

/-- The participant update step of `Channel::add_message` (lines 55-73):
refresh `last_seen`, bump `message_count`, keep the first-seen pubkey. -/
def updateParticipant (parts : String → Option Participant) (msg : Message)
    (now : Int) : String → Option Participant :=
  match parts msg.nickname with
  | some p =>
      updMap parts msg.nickname
        { p with
          last_seen := now
          message_count := p.message_count + 1
          pubkey := match p.pubkey with
            | none => msg.pubkey
            | some q => some q }
  | none =>
      updMap parts msg.nickname
        { nickname := msg.nickname
          pubkey := msg.pubkey
          last_seen := now
          message_count := 1 }

/-- The participant eviction step of `Channel::add_message` (lines 97-99):
`retain(|_, p| p.last_seen > now - 1h)`. -/
def evictStale (parts : String → Option Participant) (now : Int) :
    String → Option Participant := fun k =>
  match parts k with
  | some p => if now - 3600 < p.last_seen then some p else none
  | none => none

/-- `Channel::add_message` (`src/channels/mod.rs` lines 52-100): update or
insert the participant (first-seen pubkey wins), insert the message in
timestamp order (append fast path, binary-search splice otherwise), refresh
`last_activity`, drain down to the newest 250 messages, and evict
participants not seen for an hour. -/
def Channel.addMessage (ch : Channel) (msg : Message) (now : Int) : Channel :=
  { ch with
    messages := drainTo250 (insertOrdered ch.messages msg)
    participants := evictStale (updateParticipant ch.participants msg now) now
    last_activity := now }

/-- Run a sequence of `add_message` calls (each paired with its wall-clock
instant) against a channel. -/
def Channel.addAll (ch : Channel) (inputs : List (Message × Int)) : Channel :=
  inputs.foldl (fun c i => c.addMessage i.1 i.2) ch

/-! ### SpamFilter (`src/app.rs`)

`Instant` arguments are called `now`; `chrono::Utc::now()` is `ct`.
Byte-level character predicates are the ASCII fragment of Rust's Unicode
`char` predicates (bytes and chars coincide on ASCII content). -/

/-- ASCII `char::is_uppercase`. -/
def isUpperByte (b : Nat) : Bool := 65 ≤ b && b ≤ 90

/-- ASCII `char::is_alphabetic`. -/
def isAlphaByte (b : Nat) : Bool := isUpperByte b || (97 ≤ b && b ≤ 122)

/-- ASCII `str::to_lowercase`, byte by byte. -/
def toLowerBytes (content : List Nat) : List Nat :=
  content.map fun b => if 65 ≤ b ∧ b ≤ 90 then b + 32 else b

/-- `needle` occurs at the head of `hay`. -/
def prefixMatch : List Nat → List Nat → Bool
  | [], _ => true
  | _ :: _, [] => false
  | a :: as, b :: bs => a = b && prefixMatch as bs

/-- Rust `str::contains` (substring search) on byte lists. -/
def containsSub (hay needle : List Nat) : Bool :=
  match hay with
  | [] => needle.isEmpty
  | _ :: rest => prefixMatch needle hay || containsSub rest needle

/-- `SpamFilter::simple_hash`: base-31 polynomial over the content bytes with
`u64` wrapping arithmetic. -/
def simpleHash (content : List Nat) : Nat :=
  content.foldl (fun h b => (h * 31 + b) % 2 ^ 64) 0

/-- The `SpamFilter` struct (`src/app.rs` lines 14-31). -/
structure SpamFilter where
  user_message_frequency : String → Option (Nat × Nat)
  auto_muted_users : String → Option Nat
  max_messages_per_minute : Nat
  duplicate_message_threshold : Nat
  max_future_time_seconds : Nat
  max_past_time_hours : Nat
  recent_message_hashes : Nat → Option (Nat × String)
  spam_keywords : List (List Nat)

/-- UTF-8 bytes of the ten `spam_keywords` literals from `SpamFilter::new`
("🚀🚀🚀", "CLICK HERE", "FREE MONEY", "telegram.me", "bit.ly", "JOIN NOW",
"LIMITED TIME", "EARN $$$", "CRYPTO PUMP", "🎰🎰🎰"). -/
def spamKeywordBytes : List (List Nat) :=
  [ [240, 159, 154, 128, 240, 159, 154, 128, 240, 159, 154, 128]
  , [67, 76, 73, 67, 75, 32, 72, 69, 82, 69]
  , [70, 82, 69, 69, 32, 77, 79, 78, 69, 89]
  , [116, 101, 108, 101, 103, 114, 97, 109, 46, 109, 101]
  , [98, 105, 116, 46, 108, 121]
  , [74, 79, 73, 78, 32, 78, 79, 87]
  , [76, 73, 77, 73, 84, 69, 68, 32, 84, 73, 77, 69]
  , [69, 65, 82, 78, 32, 36, 36, 36]
  , [67, 82, 89, 80, 84, 79, 32, 80, 85, 77, 80]
  , [240, 159, 142, 176, 240, 159, 142, 176, 240, 159, 142, 176] ]

/-- `SpamFilter::new`. -/
def SpamFilter.new : SpamFilter :=
  { user_message_frequency := emptyMap
    auto_muted_users := emptyMap
    max_messages_per_minute := 15
    duplicate_message_threshold := 3
    max_future_time_seconds := 300
    max_past_time_hours := 24
    recent_message_hashes := emptyMap
    spam_keywords := spamKeywordBytes }

/-- `SpamFilter::auto_mute_user` (lines 185-197): no-op returning `false` for
an already-muted identity; otherwise records the mute start, clears the
identity's frequency entry, and returns `true` ("newly muted"). -/
def SpamFilter.autoMuteUser (s : SpamFilter) (pk : String) (now : Nat) :
    Bool × SpamFilter :=
  if (s.auto_muted_users pk).isSome then (false, s)
  else
    (true,
      { s with
        auto_muted_users := updMap s.auto_muted_users pk now
        user_message_frequency := delMap s.user_message_frequency pk })

/-- `SpamFilter::check_message_frequency` (lines 138-156). -/
def SpamFilter.checkMessageFrequency (s : SpamFilter) (pk : String) (now : Nat) :
    Bool × SpamFilter :=
  match s.user_message_frequency pk with
  | some (count, first_time) =>
    if now - first_time < 60 then
      (s.max_messages_per_minute < count + 1,
        { s with
          user_message_frequency :=
            updMap s.user_message_frequency pk (count + 1, first_time) })
    else
      (false,
        { s with
          user_message_frequency := updMap s.user_message_frequency pk (1, now) })
  | none =>
    (false,
      { s with
        user_message_frequency := updMap s.user_message_frequency pk (1, now) })

/-- `SpamFilter::check_duplicate_message` (lines 158-174). -/
def SpamFilter.checkDuplicateMessage (s : SpamFilter) (content : List Nat)
    (pk : String) : Bool × SpamFilter :=
  let h := simpleHash content
  match s.recent_message_hashes h with
  | some (count, existing_pubkey) =>
    if existing_pubkey = pk then
      (s.duplicate_message_threshold ≤ count + 1,
        { s with
          recent_message_hashes :=
            updMap s.recent_message_hashes h (count + 1, existing_pubkey) })
    else (false, s)
  | none =>
    (false,
      { s with recent_message_hashes := updMap s.recent_message_hashes h (1, pk) })

/-- The keyword rule of `is_spam`: `content_lower.contains(&keyword.to_lowercase())`
for any of the configured keywords. -/
def SpamFilter.keywordHit (s : SpamFilter) (content : List Nat) : Bool :=
  s.spam_keywords.any fun kw => containsSub (toLowerBytes content) (toLowerBytes kw)

/-- The excessive-caps rule of `is_spam` (lines 121-131): byte length over 20,
at least one letter, and an uppercase/letter ratio above 0.8.  The `f64`
comparison `(upper as f64 / letters as f64) > 0.8` is embedded as the exact
rational comparison `4 * letters < 5 * upper`; the two agree for every count
pair a message can produce (the quotient of naturals below `2 ^ 50` never
falls inside the rounding gap of the `f64` literal `0.8`). -/
def capsHit (content : List Nat) : Bool :=
  decide (20 < content.length) &&
    (let upper := (content.filter isUpperByte).length
     let letters := (content.filter isAlphaByte).length
     decide (0 < letters) && decide (4 * letters < 5 * upper))

/-- Rules 4-7 of `SpamFilter::is_spam` (keywords, frequency, duplicate
content, excessive caps), reached once the timestamp rules pass and no active
mute remains. -/
def SpamFilter.isSpamRest (s : SpamFilter) (pk : String) (m : Message)
    (now : Nat) : Bool × SpamFilter :=
  if s.keywordHit m.content then (true, (s.autoMuteUser pk now).2)
  else
    let fr := s.checkMessageFrequency pk now
    if fr.1 then (true, (fr.2.autoMuteUser pk now).2)
    else
      let du := fr.2.checkDuplicateMessage m.content pk
      if du.1 then (true, (du.2.autoMuteUser pk now).2)
      else if capsHit m.content then (true, (du.2.autoMuteUser pk now).2)
      else (false, du.2)

/-- `SpamFilter::is_spam` (lines 60-135).  Returns the classification together
with the filter state after the call (`&mut self` in the source). -/
def SpamFilter.isSpam (s : SpamFilter) (m : Message) (now : Nat) (ct : Int) :
    Bool × SpamFilter :=
  match m.pubkey with
  | none => (false, s)
  | some pk =>
    if ct + (s.max_future_time_seconds : Int) < m.timestamp then
      (true, (s.autoMuteUser pk now).2)
    else if m.timestamp < ct - 3600 * (s.max_past_time_hours : Int) then
      (true, (s.autoMuteUser pk now).2)
    else
      match s.auto_muted_users pk with
      | some mute_time =>
        if now - mute_time < 600 then (true, s)
        else
          SpamFilter.isSpamRest
            { s with auto_muted_users := delMap s.auto_muted_users pk } pk m now
      | none => s.isSpamRest pk m now

/-- `SpamFilter::is_user_auto_muted` (lines 199-205). -/
def SpamFilter.isUserAutoMuted (s : SpamFilter) (pk : String) (now : Nat) : Bool :=
  match s.auto_muted_users pk with
  | some mute_time => now - mute_time < 600
  | none => false

/-! ### GeoRelayDirectory (`src/nostr/georelay_directory.rs`)

The relay coordinates are `f64` and the ranking distance is the `f64`
haversine formula; the distance function is therefore kept abstract (an
arbitrary `RelayInfo → Int` parameter).  Every property proved below holds
for all distance functions. -/

/-- `RelayInfo`, coordinates folded into the abstract distance parameter. -/
structure RelayInfo where
  url : String
deriving DecidableEq

/-- `GeoRelayDirectory::fallback_relays` (lines 190-213), urls only. -/
def fallbackRelays : List RelayInfo :=
  [⟨"relay.damus.io"⟩, ⟨"nos.lol"⟩, ⟨"relay.nostr.band"⟩,
   ⟨"nostr-pub.wellorder.net"⟩]

/-- `GeoRelayDirectory::closest_relays_to_coords` (lines 75-98): with an empty
catalog, up to `count` fallback urls verbatim; otherwise the catalog sorted by
distance, truncated to `count`, each formatted as `wss://host`. -/
def closestRelaysToCoords (dist : RelayInfo → Int) (relays : List RelayInfo)
    (count : Nat) : List String :=
  if relays.isEmpty then (fallbackRelays.map RelayInfo.url).take count
  else
    (((relays.mergeSort fun a b => dist a ≤ dist b).take count).map
      fun r => "wss://" ++ r.url)

/-- The directory state: in-memory catalog and last-fetch instant. -/
structure GeoState where
  relays : List RelayInfo
  last_fetch : Option Nat

/-- `GeoRelayDirectory::should_fetch` (lines 101-107). -/
def shouldFetch (st : GeoState) (now : Nat) : Bool :=
  match st.last_fetch with
  | some t => 86400 ≤ now - t
  | none => true

/-- `GeoRelayDirectory::fetch_and_update` (lines 110-132).  The network result
is passed in (`some rows` for a successful fetch+parse, `none` for any
failure).  The boolean reports whether a remote fetch was attempted. -/
def fetchAndUpdate (st : GeoState) (now : Nat)
    (result : Option (List RelayInfo)) : GeoState × Bool :=
  if shouldFetch st now then
    match result with
    | some rs => ({ relays := rs, last_fetch := some now }, true)
    | none => (st, true)
  else (st, false)

/-! ### ChannelManager (`src/channels/manager.rs`)

The `channels` HashMap is embedded as an association list; its order stands
for the map's iteration order, which feeds the stable `sort_by`. -/

/-- `self.channels.get(name).map(|c| c.last_activity)`. -/
def lookupActivity (channels : List (String × Channel)) (name : String) :
    Option Int :=
  (channels.lookup name).map Channel.last_activity

/-- `Option<DateTime>` under Rust's derived `Ord`: `None` below every `Some`. -/
def optLe : Option Int → Option Int → Bool
  | none, _ => true
  | some _, none => false
  | some x, some y => x ≤ y

/-- `ChannelManager::list_channels` (lines 76-89): joined channel names,
stably sorted most-recent-activity first. -/
def listChannels (channels : List (String × Channel)) : List String :=
  ((channels.filter fun c => c.2.is_joined).map fun c => c.1).mergeSort
    fun a b => optLe (lookupActivity channels b) (lookupActivity channels a)

/-- `ChannelManager::list_all_channels` (lines 91-103): every channel name
paired with its joined flag, stably sorted most-recent-activity first. -/
def listAllChannels (channels : List (String × Channel)) :
    List (String × Bool) :=
  ((channels.map fun c => (c.1, c.2.is_joined)).mergeSort
    fun a b => optLe (lookupActivity channels b.1) (lookupActivity channels a.1))

/-! ### Concrete inputs used by counterexamples -/

/-- A minimal public message with the given timestamp. -/
def mkMsg (nick : String) (t : Int) : Message :=
  { channel := "u", nickname := nick, content := [], timestamp := t,
    pubkey := none, is_own := false, is_private := false,
    recipient_pubkey := none }

/-- 250 messages with timestamps 1..250, arriving in order, all added at
wall-clock instant 0. -/
def cexSorted : List (Message × Int) :=
  (List.range 250).map fun i : Nat => (mkMsg "a" ((i : Int) + 1), (0 : Int))

/-- 251 messages: timestamps 1..250 in order, then a final out-of-order
message with timestamp 0. -/
def cexInputs : List (Message × Int) := cexSorted ++ [(mkMsg "a" 0, 0)]

/-- A filter state in which identity "p" was auto-muted at instant 5. -/
def c3Filter : SpamFilter :=
  { SpamFilter.new with auto_muted_users := updMap emptyMap "p" 5 }

/-- An innocuous public message from identity "p" with content "hi"
(bytes 104 105) and timestamp 0. -/
def hiMsg : Message :=
  { channel := "u", nickname := "n", content := [104, 105], timestamp := 0,
    pubkey := some "p", is_own := false, is_private := false,
    recipient_pubkey := none }

example :
    (Channel.addMessage (Channel.new "u" 0)
      { channel := "u", nickname := "a", content := [], timestamp := 5,
        pubkey := none, is_own := false, is_private := false,
        recipient_pubkey := none } 1).messages.map Message.timestamp = [5] := by
  decide

example : bsInsertPos [1, 3, 5] 4 = 2 := by decide
example : bsInsertPos [1, 3, 5] 0 = 0 := by decide
example : bsInsertPos [1, 3, 5] 3 = 1 := by decide
example : bsInsertPos [1, 3, 5] 9 = 3 := by decide

/-! ### Binary search: bounds and ordering invariants -/

theorem sorted_getD_mono {l : List Int} (hs : l.Pairwise (· ≤ ·))
    {i j : Nat} (hij : i ≤ j) (hj : j < l.length) : l.getD i 0 ≤ l.getD j 0 := by
  rw [List.getD_eq_getElem l 0 (by omega), List.getD_eq_getElem l 0 hj]
  rcases Nat.eq_or_lt_of_le hij with h | h
  · subst h; exact le_refl _
  · exact List.pairwise_iff_getElem.mp hs i j (by omega) hj h

theorem bsLoop_bounds (keys : List Int) (t : Int) (fuel : Nat) :
    ∀ (base size : Nat), 1 ≤ size → base + size ≤ keys.length →
      base ≤ bsLoop keys t fuel base size ∧
        bsLoop keys t fuel base size < keys.length := by
  induction fuel with
  | zero => intro base size h1 h2; simp only [bsLoop]; omega
  | succ fuel ih =>
    intro base size h1 h2
    by_cases hsz : size ≤ 1
    · simp only [bsLoop, if_pos hsz]; omega
    · by_cases hc : t < keys.getD (base + size / 2) 0
      · have h := ih base (size - size / 2) (by omega) (by omega)
        simp only [bsLoop, if_neg hsz, if_pos hc]
        exact h
      · have h := ih (base + size / 2) (size - size / 2) (by omega) (by omega)
        simp only [bsLoop, if_neg hsz, if_neg hc]
        exact ⟨by omega, h.2⟩

theorem bsLoop_inv (keys : List Int) (t : Int) (hs : keys.Pairwise (· ≤ ·))
    (fuel : Nat) :
    ∀ (base size : Nat), 1 ≤ size → size ≤ fuel → base + size ≤ keys.length →
      (∀ i, i < base → keys.getD i 0 ≤ t) →
      (∀ i, base + size ≤ i → i < keys.length → t < keys.getD i 0) →
      (∀ i, i < bsLoop keys t fuel base size → keys.getD i 0 ≤ t) ∧
      (∀ i, bsLoop keys t fuel base size + 1 ≤ i → i < keys.length →
        t < keys.getD i 0) := by
  induction fuel with
  | zero => intro base size h1 hf _ _ _; exfalso; omega
  | succ fuel ih =>
    intro base size h1 hf hlen hlo hhi
    by_cases hsz : size ≤ 1
    · have hsz1 : size = 1 := by omega
      simp only [bsLoop, if_pos hsz]
      exact ⟨hlo, fun i hge hilt => hhi i (by omega) hilt⟩
    · have hmidlt : base + size / 2 < keys.length := by omega
      by_cases hc : t < keys.getD (base + size / 2) 0
      · simp only [bsLoop, if_neg hsz, if_pos hc]
        apply ih base (size - size / 2) (by omega) (by omega) (by omega) hlo
        intro i hge hilt
        exact lt_of_lt_of_le hc (sorted_getD_mono hs (by omega) hilt)
      · have hc' : keys.getD (base + size / 2) 0 ≤ t := by omega
        simp only [bsLoop, if_neg hsz, if_neg hc]
        apply ih (base + size / 2) (size - size / 2) (by omega) (by omega)
          (by omega)
        · intro i hi
          exact le_trans (sorted_getD_mono hs (by omega) hmidlt) hc'
        · intro i hge hilt
          exact hhi i (by omega) hilt

theorem bsInsertPos_le (keys : List Int) (t : Int) :
    bsInsertPos keys t ≤ keys.length := by
  by_cases h0 : keys.length = 0
  · simp [bsInsertPos, h0]
  · have hb := bsLoop_bounds keys t keys.length 0 keys.length (by omega)
      (by omega)
    simp only [bsInsertPos, if_neg h0]
    split
    · omega
    · split <;> omega

theorem bsInsertPos_spec (keys : List Int) (t : Int)
    (hs : keys.Pairwise (· ≤ ·)) :
    (∀ i, i < bsInsertPos keys t → keys.getD i 0 ≤ t) ∧
    (∀ i, bsInsertPos keys t ≤ i → i < keys.length → t ≤ keys.getD i 0) := by
  by_cases h0 : keys.length = 0
  · constructor
    · intro i hi
      simp [bsInsertPos, h0] at hi
    · intro i _ hilt; omega
  · obtain ⟨hl, hh⟩ := bsLoop_inv keys t hs keys.length 0 keys.length
      (by omega) (le_refl _) (by omega) (by omega) (by intro i h1 h2; omega)
    obtain ⟨hb0, hblt⟩ := bsLoop_bounds keys t keys.length 0 keys.length
      (by omega) (by omega)
    set b := bsLoop keys t keys.length 0 keys.length with hbdef
    by_cases he : keys.getD b 0 = t
    · have hval : bsInsertPos keys t = b := by
        simp only [bsInsertPos, ← hbdef]
        rw [if_neg h0, if_pos he]
      rw [hval]
      refine ⟨hl, fun i hbi hilt => ?_⟩
      rcases Nat.eq_or_lt_of_le hbi with h | h
      · exact le_of_eq (h ▸ he).symm
      · exact le_of_lt (hh i (by omega) hilt)
    · by_cases hlt : keys.getD b 0 < t
      · have hval : bsInsertPos keys t = b + 1 := by
          simp only [bsInsertPos, ← hbdef]
          rw [if_neg h0, if_neg he, if_pos hlt]
        rw [hval]
        constructor
        · intro i hi
          rcases Nat.lt_succ_iff_lt_or_eq.mp hi with h | h
          · exact hl i h
          · rw [h]; omega
        · intro i hbi hilt
          exact le_of_lt (hh i (by omega) hilt)
      · have hval : bsInsertPos keys t = b := by
          simp only [bsInsertPos, ← hbdef]
          rw [if_neg h0, if_neg he, if_neg hlt]
        rw [hval]
        refine ⟨hl, fun i hbi hilt => ?_⟩
        rcases Nat.eq_or_lt_of_le hbi with h | h
        · rw [← h]; omega
        · exact le_of_lt (hh i (by omega) hilt)

theorem pairwise_insertIdx {keys : List Int} {t : Int} {pos : Nat}
    (hpos : pos ≤ keys.length) (hs : keys.Pairwise (· ≤ ·))
    (hlo : ∀ i, i < pos → keys.getD i 0 ≤ t)
    (hhi : ∀ i, pos ≤ i → i < keys.length → t ≤ keys.getD i 0) :
    (List.insertIdx pos t keys).Pairwise (· ≤ ·) := by
  have hlen : (List.insertIdx pos t keys).length = keys.length + 1 :=
    List.length_insertIdx pos keys hpos
  rw [List.pairwise_iff_getElem]
  intro i j hi hj hij
  have hkey : ∀ (m : Nat) (hm : m < (List.insertIdx pos t keys).length)
      (hmp : pos < m), (List.insertIdx pos t keys)[m] = keys.getD (m - 1) 0 := by
    intro m hm hmp
    obtain ⟨k, rfl⟩ : ∃ k, m = pos + k + 1 := ⟨m - 1 - pos, by omega⟩
    have hk : pos + k < keys.length := by omega
    rw [show pos + k + 1 - 1 = pos + k from rfl,
      List.getD_eq_getElem keys 0 hk,
      List.getElem_insertIdx_add_succ keys t pos k hk]
  have hlow : ∀ (m : Nat) (hm : m < (List.insertIdx pos t keys).length)
      (hmp : m < pos), (List.insertIdx pos t keys)[m] = keys.getD m 0 := by
    intro m hm hmp
    rw [List.getElem_insertIdx_of_lt keys t pos m hmp (by omega),
      List.getD_eq_getElem keys 0 (by omega)]
  have hself : ∀ (hm : pos < (List.insertIdx pos t keys).length),
      (List.insertIdx pos t keys)[pos] = t := by
    intro hm
    exact List.getElem_insertIdx_self keys t pos hpos
  rcases Nat.lt_trichotomy j pos with hjp | hjp | hjp
  · rw [hlow i hi (by omega), hlow j hj hjp]
    exact sorted_getD_mono hs (by omega) (by omega)
  · subst hjp
    rw [hlow i hi (by omega), hself hj]
    exact hlo i (by omega)
  · rw [hkey j hj hjp]
    rcases Nat.lt_trichotomy i pos with hip | hip | hip
    · rw [hlow i hi hip]
      exact le_trans (hlo i hip) (hhi (j - 1) (by omega) (by omega))
    · subst hip
      rw [hself hi]
      exact hhi (j - 1) (by omega) (by omega)
    · rw [hkey i hi hip]
      exact sorted_getD_mono hs (by omega) (by omega)

/-! ### `Channel::add_message`: order, length, retention -/

theorem map_insertIdx (f : α → β) :
    ∀ (pos : Nat) (a : α) (l : List α),
      (List.insertIdx pos a l).map f = List.insertIdx pos (f a) (l.map f)
  | 0, a, l => by simp [List.insertIdx_zero]
  | pos + 1, a, [] => by simp [List.insertIdx_succ_nil]
  | pos + 1, a, x :: xs => by
    simp [List.insertIdx_succ_cons, map_insertIdx f pos a xs]

theorem getD_map_timestamp (l : List Message) (i : Nat) (hi : i < l.length) :
    (l.map Message.timestamp).getD i 0 = (l.getD i (mkMsg "" 0)).timestamp := by
  rw [List.getD_eq_getElem (l.map Message.timestamp) 0 (by simpa using hi),
    List.getD_eq_getElem l (mkMsg "" 0) hi, List.getElem_map]

theorem getLast_map_timestamp {l : List Message} {last : Message}
    (h : l.getLast? = some last) :
    (l.map Message.timestamp).getD (l.length - 1) 0 = last.timestamp := by
  rw [List.getLast?_eq_getElem?] at h
  rw [List.getD_eq_getElem?_getD, List.getElem?_map, h]
  rfl

theorem insertOrdered_length (msgs : List Message) (msg : Message) :
    (insertOrdered msgs msg).length = msgs.length + 1 := by
  unfold insertOrdered
  match hlast : msgs.getLast? with
  | none => simp
  | some last =>
    by_cases hle : last.timestamp ≤ msg.timestamp
    · simp [hle]
    · simp only [hle, if_false]
      rw [List.length_insertIdx _ _ (by
        have := bsInsertPos_le (msgs.map Message.timestamp) msg.timestamp
        simpa using this)]

theorem drainTo250_length (msgs : List Message) :
    (drainTo250 msgs).length = min msgs.length 250 := by
  unfold drainTo250
  by_cases h : 250 < msgs.length
  · simp [h, List.length_drop]; omega
  · simp [h]; omega

theorem addMessage_length (ch : Channel) (msg : Message) (now : Int) :
    (ch.addMessage msg now).messages.length = min (ch.messages.length + 1) 250 := by
  show (drainTo250 (insertOrdered ch.messages msg)).length = _
  rw [drainTo250_length, insertOrdered_length]

theorem insertOrdered_sorted {msgs : List Message} (msg : Message)
    (hs : (msgs.map Message.timestamp).Pairwise (· ≤ ·)) :
    ((insertOrdered msgs msg).map Message.timestamp).Pairwise (· ≤ ·) := by
  unfold insertOrdered
  match hlast : msgs.getLast? with
  | none =>
    have : msgs = [] := List.getLast?_eq_none_iff.mp hlast
    subst this
    simp
  | some last =>
    have hne : msgs ≠ [] := by
      intro h; subst h; simp at hlast
    have hlen0 : 0 < msgs.length := List.length_pos.mpr hne
    by_cases hle : last.timestamp ≤ msg.timestamp
    · simp only [hle, if_true]
      have heq : msgs ++ [msg] =
          List.insertIdx msgs.length msg msgs := (List.insertIdx_length_self msgs msg).symm
      rw [heq, map_insertIdx]
      apply pairwise_insertIdx (by simp) hs
      · intro i hi
        calc (msgs.map Message.timestamp).getD i 0
            ≤ (msgs.map Message.timestamp).getD (msgs.length - 1) 0 :=
              sorted_getD_mono hs (by omega) (by simp; omega)
          _ = last.timestamp := getLast_map_timestamp hlast
          _ ≤ msg.timestamp := hle
      · intro i hge hilt
        simp at hilt
        omega
    · simp only [hle, if_false]
      rw [map_insertIdx]
      obtain ⟨hlo, hhi⟩ :=
        bsInsertPos_spec (msgs.map Message.timestamp) msg.timestamp hs
      have hple := bsInsertPos_le (msgs.map Message.timestamp) msg.timestamp
      apply pairwise_insertIdx (by simpa using hple) hs hlo
      intro i hge hilt
      exact hhi i hge (by simpa using hilt)

theorem drainTo250_sorted {msgs : List Message}
    (hs : (msgs.map Message.timestamp).Pairwise (· ≤ ·)) :
    ((drainTo250 msgs).map Message.timestamp).Pairwise (· ≤ ·) := by
  unfold drainTo250
  by_cases h : 250 < msgs.length
  · simp only [h, if_true]
    rw [List.map_drop]
    exact hs.drop
  · simpa [h] using hs

theorem addMessage_sorted {ch : Channel} (msg : Message) (now : Int)
    (hs : (ch.messages.map Message.timestamp).Pairwise (· ≤ ·)) :
    (((ch.addMessage msg now).messages).map Message.timestamp).Pairwise (· ≤ ·) :=
  drainTo250_sorted (insertOrdered_sorted msg hs)

theorem addAll_sorted {ch : Channel}
    (hs : (ch.messages.map Message.timestamp).Pairwise (· ≤ ·)) :
    ∀ inputs : List (Message × Int),
      (((ch.addAll inputs).messages).map Message.timestamp).Pairwise (· ≤ ·) := by
  intro inputs
  induction inputs generalizing ch with
  | nil => exact hs
  | cons i rest ih => exact ih (addMessage_sorted i.1 i.2 hs)

theorem addAll_length (ch : Channel) (hch : ch.messages.length ≤ 250) :
    ∀ inputs : List (Message × Int),
      (ch.addAll inputs).messages.length =
        min (ch.messages.length + inputs.length) 250 := by
  intro inputs
  induction inputs generalizing ch with
  | nil =>
    show ch.messages.length = min (ch.messages.length + List.length []) 250
    simp only [List.length_nil]
    omega
  | cons i rest ih =>
    have h := ih (ch.addMessage i.1 i.2) (by rw [addMessage_length]; omega)
    show (((ch.addMessage i.1 i.2).addAll rest).messages).length = _
    rw [h, addMessage_length]
    simp only [List.length_cons]
    omega

theorem drop_congr {l : List α} {a b : Nat} (h : a = b) : l.drop a = l.drop b := by
  rw [h]

theorem addMessage_messages (ch : Channel) (msg : Message) (now : Int) :
    (ch.addMessage msg now).messages =
      drainTo250 (insertOrdered ch.messages msg) := rfl

theorem addMessage_participants (ch : Channel) (msg : Message) (now : Int) :
    (ch.addMessage msg now).participants =
      evictStale (updateParticipant ch.participants msg now) now := rfl

theorem insertOrdered_slow {msgs : List Message} {msg last : Message}
    (hl : msgs.getLast? = some last)
    (hgt : ¬ last.timestamp ≤ msg.timestamp) :
    insertOrdered msgs msg =
      List.insertIdx (bsInsertPos (msgs.map Message.timestamp) msg.timestamp)
        msg msgs := by
  unfold insertOrdered
  rw [hl]
  exact if_neg hgt

theorem bsInsertPos_eq_zero {keys : List Int} {t : Int}
    (hs : keys.Pairwise (· ≤ ·)) (hall : ∀ x ∈ keys, t < x) :
    bsInsertPos keys t = 0 := by
  by_contra h
  have hpos : 1 ≤ bsInsertPos keys t := by omega
  have hle := (bsInsertPos_spec keys t hs).1 0 (by omega)
  match keys, hall with
  | [], _ => simp [bsInsertPos] at h
  | a :: as, hall =>
    have hta : t < a := hall a (List.mem_cons_self a as)
    have : (a :: as).getD 0 0 = a := rfl
    rw [this] at hle
    omega

theorem retention_aux :
    ∀ (inputs : List (Message × Int)) (done : List Message) (ch : Channel),
      ch.messages = done.drop (done.length - 250) →
      (∀ d ∈ done, ∀ i ∈ inputs, d.timestamp ≤ i.1.timestamp) →
      ((inputs.map fun i => i.1.timestamp).Pairwise (· ≤ ·)) →
      (ch.addAll inputs).messages =
        (done ++ inputs.map Prod.fst).drop
          ((done.length + inputs.length) - 250) := by
  intro inputs
  induction inputs with
  | nil =>
    intro done ch hinv _ _
    simpa using hinv
  | cons i rest ih =>
    intro done ch hinv hcross hpw
    obtain ⟨m, t⟩ := i
    simp only [List.map_cons] at hpw
    obtain ⟨hhead, htail⟩ := List.pairwise_cons.mp hpw
    have hstep : (ch.addMessage m t).messages =
        (done ++ [m]).drop ((done.length + 1) - 250) := by
      show drainTo250 (insertOrdered ch.messages m) = _
      have hfast : insertOrdered ch.messages m = ch.messages ++ [m] := by
        rcases hlast : ch.messages.getLast? with _ | last
        · simp [insertOrdered, hlast]
        · have hld : done.getLast? = some last := by
            rw [hinv, List.getLast?_drop] at hlast
            by_cases hc : done.length ≤ done.length - 250
            · rw [if_pos hc] at hlast; exact absurd hlast (by simp)
            · rwa [if_neg hc] at hlast
          have hmem : last ∈ done := List.mem_of_getLast?_eq_some hld
          have hle : last.timestamp ≤ m.timestamp :=
            hcross last hmem (m, t) (List.mem_cons_self _ _)
          simp [insertOrdered, hlast, hle]
      rw [hfast, hinv, ← List.drop_append_of_le_length (by omega)]
      unfold drainTo250
      simp only [List.length_drop, List.length_append, List.length_singleton]
      by_cases hn : done.length < 250
      · rw [if_neg (by omega)]
        exact drop_congr (by omega)
      · rw [if_pos (by omega), List.drop_drop]
        exact drop_congr (by omega)
    have hinv' : (ch.addMessage m t).messages =
        (done ++ [m]).drop ((done ++ [m]).length - 250) := by
      rw [hstep]
      simp only [List.length_append, List.length_singleton]
    have hcross' : ∀ d ∈ done ++ [m], ∀ i ∈ rest,
        d.timestamp ≤ i.1.timestamp := by
      intro d hd i hi
      rcases List.mem_append.mp hd with hd | hd
      · exact hcross d hd i (List.mem_cons_of_mem _ hi)
      · have hdm : d = m := by simpa using hd
        subst hdm
        exact hhead i.1.timestamp (List.mem_map_of_mem _ hi)
    have hres := ih (done ++ [m]) (ch.addMessage m t) hinv' hcross' htail
    show ((ch.addMessage m t).addAll rest).messages = _
    rw [hres]
    simp only [List.append_assoc, List.singleton_append, List.map_cons,
      List.length_append, List.length_singleton, List.length_cons,
      List.length_map, List.length_nil]
    exact drop_congr (by omega)

/-! ### Participant bookkeeping helpers -/

theorem evictStale_some {parts : String → Option Participant} {now : Int}
    {k : String} {p : Participant} (h : parts k = some p)
    (hfresh : now - 3600 < p.last_seen) : evictStale parts now k = some p := by
  unfold evictStale
  rw [h]
  exact if_pos hfresh

theorem evictStale_fresh {parts : String → Option Participant} {now : Int}
    {k : String} {p : Participant} (h : evictStale parts now k = some p) :
    now - 3600 < p.last_seen := by
  unfold evictStale at h
  rcases hq : parts k with _ | q
  · rw [hq] at h
    exact absurd h (by simp)
  · rw [hq] at h
    replace h : (if now - 3600 < q.last_seen then some q else none) = some p := h
    by_cases hcut : now - 3600 < q.last_seen
    · rw [if_pos hcut] at h
      injection h with h'
      rw [← h']
      exact hcut
    · rw [if_neg hcut] at h
      exact absurd h (by simp)

theorem updateParticipant_self (parts : String → Option Participant)
    (m : Message) (now : Int) :
    ∃ p, updateParticipant parts m now m.nickname = some p ∧
      p.last_seen = now := by
  rcases hq : parts m.nickname with _ | q
  · refine ⟨⟨m.nickname, m.pubkey, now, 1⟩, ?_, rfl⟩
    unfold updateParticipant
    rw [hq]
    simp [updMap]
  · refine ⟨⟨q.nickname,
      (match q.pubkey with | none => m.pubkey | some r => some r),
      now, q.message_count + 1⟩, ?_, rfl⟩
    unfold updateParticipant
    rw [hq]
    simp [updMap]

/-! ### Claim theorems: channel store (C1, C2, C6) -/

/-- C2: after any sequence of `Channel.add_message` calls, regardless of the
arrival order of message timestamps, the stored message sequence is in
non-decreasing timestamp order (appended when in order, spliced at the
binary-search insertion point otherwise). -/
theorem C2_stored_order_nondecreasing (g : String) (now0 : Int)
    (inputs : List (Message × Int)) :
    ((((Channel.new g now0).addAll inputs).messages).map
      Message.timestamp).Pairwise (· ≤ ·) :=
  @addAll_sorted (Channel.new g now0) (by exact List.Pairwise.nil) inputs

/-- C1 (amended): for every sequence of more than 250 messages added to one
channel, the stored count is exactly 250, the bound being enforced per call by
one bulk drain (`length` becomes `min (old + 1) 250`, never a rejection); the
retained messages are the last 250 of the timestamp-ordered store, which are
the 250 most recently appended when arrival timestamps are non-decreasing. -/
theorem C1_capacity_bound (g : String) (now0 : Int)
    (inputs : List (Message × Int)) (h : 250 < inputs.length) :
    ((Channel.new g now0).addAll inputs).messages.length = 250 ∧
    (∀ (ch : Channel) (m : Message) (now : Int),
      (ch.addMessage m now).messages.length =
        min (ch.messages.length + 1) 250) ∧
    ((inputs.map fun i => i.1.timestamp).Pairwise (· ≤ ·) →
      ((Channel.new g now0).addAll inputs).messages =
        (inputs.map Prod.fst).drop (inputs.length - 250)) := by
  refine ⟨?_, fun ch m now => addMessage_length ch m now, ?_⟩
  · have hl := addAll_length (Channel.new g now0) (by exact Nat.zero_le 250)
      inputs
    rw [hl]
    show min (List.length [] + inputs.length) 250 = 250
    simp only [List.length_nil]
    omega
  · intro hpw
    have hr := retention_aux inputs [] (Channel.new g now0) rfl
      (by intro d hd; exact absurd hd (List.not_mem_nil d)) hpw
    simpa using hr

/-- Witness for `C1_capacity_bound` at the concrete 251-message input. -/
theorem C1_capacity_bound_witness :
    250 < cexInputs.length ∧
      ((Channel.new "u" 0).addAll cexInputs).messages.length = 250 := by
  have hslen : cexSorted.length = 250 := by
    unfold cexSorted
    rw [List.length_map, List.length_range]
  have hlen : cexInputs.length = 251 := by
    unfold cexInputs
    rw [List.length_append, hslen]
    rfl
  exact ⟨by omega, (C1_capacity_bound "u" 0 cexInputs (by omega)).1⟩

/-- C1 as stated is false: with 251 messages whose last arrival is
out-of-order (timestamp 0 after 1..250), the drain removes the most recently
appended message, so the retained 250 are not the 250 most recently appended. -/
theorem C1_retention_counterexample :
    250 < cexInputs.length ∧
    ((Channel.new "u" 0).addAll cexInputs).messages ≠
      (cexInputs.map Prod.fst).drop (cexInputs.length - 250) := by
  have hslen : cexSorted.length = 250 := by
    unfold cexSorted
    rw [List.length_map, List.length_range]
  have hlen : cexInputs.length = 251 := by
    unfold cexInputs
    rw [List.length_append, hslen]
    rfl
  refine ⟨by omega, ?_⟩
  have hts : (cexSorted.map fun i => i.1.timestamp) =
      (List.range 250).map (fun i : Nat => (i : Int) + 1) := by
    unfold cexSorted
    rw [List.map_map]
    rfl
  have hpw : (cexSorted.map fun i => i.1.timestamp).Pairwise (· ≤ ·) := by
    rw [hts]
    refine List.Pairwise.map _ ?_ (List.pairwise_lt_range 250)
    intro a b hab
    have : (a : Int) < (b : Int) := by exact_mod_cast hab
    omega
  have hA : ((Channel.new "u" 0).addAll cexSorted).messages =
      cexSorted.map Prod.fst := by
    have hr := retention_aux cexSorted [] (Channel.new "u" 0) rfl
      (by intro d hd; exact absurd hd (List.not_mem_nil d)) hpw
    rw [hr]
    simp only [List.nil_append, List.length_nil, Nat.zero_add]
    rw [hslen, show (250 - 250 : Nat) = 0 from rfl, List.drop_zero]
  have hmem : ∀ x ∈ cexSorted.map Prod.fst, (1 : Int) ≤ x.timestamp := by
    unfold cexSorted
    intro x hx
    rw [List.map_map] at hx
    obtain ⟨i, _, rfl⟩ := List.mem_map.mp hx
    show (1 : Int) ≤ (i : Int) + 1
    have h0 : (0 : Int) ≤ (i : Int) := Int.natCast_nonneg i
    omega
  have hAlen : ((Channel.new "u" 0).addAll cexSorted).messages.length = 250 := by
    rw [hA, List.length_map, hslen]
  have hsorted : ((((Channel.new "u" 0).addAll cexSorted).messages).map
      Message.timestamp).Pairwise (· ≤ ·) :=
    @addAll_sorted (Channel.new "u" 0) (by exact List.Pairwise.nil)
      cexSorted
  have hkeys_pos : ∀ y ∈ (((Channel.new "u" 0).addAll cexSorted).messages).map
      Message.timestamp, (mkMsg "a" 0).timestamp < y := by
    intro y hy
    rw [hA] at hy
    obtain ⟨x, hx, rfl⟩ := List.mem_map.mp hy
    have := hmem x hx
    show (0 : Int) < x.timestamp
    omega
  have hlast : ∃ last,
      ((Channel.new "u" 0).addAll cexSorted).messages.getLast? = some last ∧
      ¬ last.timestamp ≤ (mkMsg "a" 0).timestamp := by
    rcases hl : ((Channel.new "u" 0).addAll cexSorted).messages.getLast?
      with _ | last
    · rw [List.getLast?_eq_none_iff] at hl
      rw [hl] at hAlen
      simp at hAlen
    · refine ⟨last, rfl, ?_⟩
      have hmem' := List.mem_of_getLast?_eq_some hl
      have h0 := hkeys_pos _ (List.mem_map_of_mem Message.timestamp hmem')
      have hb : (mkMsg "a" 0).timestamp = 0 := rfl
      show ¬ last.timestamp ≤ (0 : Int)
      omega
  have hfinal : ((Channel.new "u" 0).addAll cexInputs).messages =
      ((Channel.new "u" 0).addAll cexSorted).messages := by
    have hsplit : (Channel.new "u" 0).addAll cexInputs =
        ((Channel.new "u" 0).addAll cexSorted).addMessage (mkMsg "a" 0) 0 := by
      unfold cexInputs Channel.addAll
      rw [List.foldl_append]
      rfl
    rw [hsplit, addMessage_messages]
    obtain ⟨last, hl, hnle⟩ := hlast
    have hins : insertOrdered ((Channel.new "u" 0).addAll cexSorted).messages
        (mkMsg "a" 0) =
        mkMsg "a" 0 :: ((Channel.new "u" 0).addAll cexSorted).messages := by
      rw [insertOrdered_slow hl hnle,
        bsInsertPos_eq_zero hsorted hkeys_pos, List.insertIdx_zero]
    rw [hins]
    unfold drainTo250
    rw [List.length_cons, hAlen, if_pos (by omega),
      show (250 + 1 - 250 : Nat) = 1 from rfl, List.drop_one, List.tail_cons]
  intro heq
  rw [hfinal, hA] at heq
  have hmem0 : mkMsg "a" 0 ∈
      (cexInputs.map Prod.fst).drop (cexInputs.length - 250) := by
    have h1 : cexInputs.map Prod.fst =
        cexSorted.map Prod.fst ++ [mkMsg "a" 0] := by
      unfold cexInputs
      rw [List.map_append]
      rfl
    rw [h1, hlen, show (251 - 250 : Nat) = 1 from rfl,
      List.drop_append_of_le_length (by rw [List.length_map, hslen]; omega)]
    exact List.mem_append_right _ (List.mem_singleton_self _)
  rw [← heq] at hmem0
  have h2 := hmem _ hmem0
  have h3 : (mkMsg "a" 0).timestamp = 0 := rfl
  omega

/-- C6 (amended): after every `add_message`, every surviving participant has
`last_seen` within one hour of the call, and the sender's participant record
exists with `last_seen` equal to the call time.  (The stored-message ↔
participant iff of the original claim is refuted separately.) -/
theorem C6_participant_eviction (ch : Channel) (m : Message) (now : Int) :
    (∀ k p, (ch.addMessage m now).participants k = some p →
      now - 3600 < p.last_seen) ∧
    (∃ p, (ch.addMessage m now).participants m.nickname = some p ∧
      p.last_seen = now) := by
  constructor
  · intro k p hp
    exact evictStale_fresh hp
  · obtain ⟨p, hup, hls⟩ := updateParticipant_self ch.participants m now
    exact ⟨p, evictStale_some hup (by omega), hls⟩

/-- C6 as stated is false: after a message from "A" at instant 0 and one from
"B" at instant 4000 (more than an hour later), the message from "A" is still
stored but "A"'s participant record has been evicted — a stored message
without a participant record. -/
theorem C6_counterexample :
    ((((Channel.new "u" 0).addMessage (mkMsg "A" 0) 0).addMessage
        (mkMsg "B" 1) 4000).messages.any fun x => x.nickname == "A") = true ∧
    (((Channel.new "u" 0).addMessage (mkMsg "A" 0) 0).addMessage
        (mkMsg "B" 1) 4000).participants "A" = none := by
  constructor
  · decide
  · decide

/-! ### SpamFilter: reduction lemmas -/

theorem autoMuteUser_already {s : SpamFilter} {pk : String} (now : Nat)
    (h : (s.auto_muted_users pk).isSome) :
    s.autoMuteUser pk now = (false, s) := by
  unfold SpamFilter.autoMuteUser
  rw [if_pos h]

theorem autoMuteUser_new {s : SpamFilter} {pk : String} (now : Nat)
    (h : s.auto_muted_users pk = none) :
    s.autoMuteUser pk now =
      (true,
        { s with
          auto_muted_users := updMap s.auto_muted_users pk now
          user_message_frequency := delMap s.user_message_frequency pk }) := by
  unfold SpamFilter.autoMuteUser
  rw [if_neg (by rw [h]; simp)]

theorem isSpam_not_muted (s : SpamFilter) (m : Message) (pk : String)
    (now : Nat) (ct : Int) (hpk : m.pubkey = some pk)
    (hf : ¬ (ct + (s.max_future_time_seconds : Int) < m.timestamp))
    (hp : ¬ (m.timestamp < ct - 3600 * (s.max_past_time_hours : Int)))
    (hmute : s.auto_muted_users pk = none) :
    s.isSpam m now ct = s.isSpamRest pk m now := by
  simp [SpamFilter.isSpam, hpk, hmute, hf, hp]

theorem isSpamRest_clean (s : SpamFilter) (pk : String) (m : Message)
    (now : Nat) (hkw : s.keywordHit m.content = false)
    (hfr : (s.checkMessageFrequency pk now).1 = false)
    (hdup : ((s.checkMessageFrequency pk now).2.checkDuplicateMessage
      m.content pk).1 = false)
    (hcaps : capsHit m.content = false) :
    s.isSpamRest pk m now =
      (false, ((s.checkMessageFrequency pk now).2.checkDuplicateMessage
        m.content pk).2) := by
  simp [SpamFilter.isSpamRest, hkw, hfr, hdup, hcaps]

theorem isSpamRest_dup_spam (s : SpamFilter) (pk : String) (m : Message)
    (now : Nat) (hkw : s.keywordHit m.content = false)
    (hfr : (s.checkMessageFrequency pk now).1 = false)
    (hdup : ((s.checkMessageFrequency pk now).2.checkDuplicateMessage
      m.content pk).1 = true) :
    s.isSpamRest pk m now =
      (true, ((((s.checkMessageFrequency pk now).2.checkDuplicateMessage
        m.content pk).2.autoMuteUser pk now)).2) := by
  simp [SpamFilter.isSpamRest, hkw, hfr, hdup]

theorem checkMessageFrequency_none {s : SpamFilter} {pk : String} (now : Nat)
    (h : s.user_message_frequency pk = none) :
    s.checkMessageFrequency pk now =
      (false,
        { s with
          user_message_frequency := updMap s.user_message_frequency pk
            (1, now) }) := by
  simp [SpamFilter.checkMessageFrequency, h]

theorem checkMessageFrequency_some {s : SpamFilter} {pk : String}
    {c t : Nat} (now : Nat) (h : s.user_message_frequency pk = some (c, t)) :
    s.checkMessageFrequency pk now =
      if now - t < 60 then
        (decide (s.max_messages_per_minute < c + 1),
          { s with
            user_message_frequency := updMap s.user_message_frequency pk
              (c + 1, t) })
      else
        (false,
          { s with
            user_message_frequency := updMap s.user_message_frequency pk
              (1, now) }) := by
  simp [SpamFilter.checkMessageFrequency, h]

theorem checkDuplicateMessage_none {s : SpamFilter} {content : List Nat}
    (pk : String) (h : s.recent_message_hashes (simpleHash content) = none) :
    s.checkDuplicateMessage content pk =
      (false,
        { s with
          recent_message_hashes := updMap s.recent_message_hashes
            (simpleHash content) (1, pk) }) := by
  simp [SpamFilter.checkDuplicateMessage, h]

theorem checkDuplicateMessage_same {s : SpamFilter} {content : List Nat}
    {pk : String} {c : Nat}
    (h : s.recent_message_hashes (simpleHash content) = some (c, pk)) :
    s.checkDuplicateMessage content pk =
      (decide (s.duplicate_message_threshold ≤ c + 1),
        { s with
          recent_message_hashes := updMap s.recent_message_hashes
            (simpleHash content) (c + 1, pk) }) := by
  simp [SpamFilter.checkDuplicateMessage, h]

/-! ### Claim theorems: spam filter (C3, C4, C9) -/

/-- C3: while an identity has an active auto-mute (< 600 s since mute start),
every message carrying its pubkey is classified spam with no state change,
and `auto_mute_user` returns `false` (no second newly-muted signal); once
600 s have elapsed, the expired entry is removed and classification proceeds
exactly as it would from the state without the entry. -/
theorem C3_auto_mute_window (s : SpamFilter) (pk : String) (t0 : Nat)
    (m : Message) (now : Nat) (ct : Int)
    (hpk : m.pubkey = some pk)
    (hmute : s.auto_muted_users pk = some t0) :
    (now - t0 < 600 →
      s.isSpam m now ct = (true, s) ∧ s.autoMuteUser pk now = (false, s)) ∧
    (600 ≤ now - t0 →
      ¬ (ct + (s.max_future_time_seconds : Int) < m.timestamp) →
      ¬ (m.timestamp < ct - 3600 * (s.max_past_time_hours : Int)) →
      s.isSpam m now ct =
        SpamFilter.isSpam
          { s with auto_muted_users := delMap s.auto_muted_users pk } m now ct ∧
      ({ s with auto_muted_users := delMap s.auto_muted_users pk
        } : SpamFilter).auto_muted_users pk = none) := by
  have hsome : (s.auto_muted_users pk).isSome := by rw [hmute]; rfl
  have hamu : s.autoMuteUser pk now = (false, s) := autoMuteUser_already now hsome
  constructor
  · intro hwin
    refine ⟨?_, hamu⟩
    simp [SpamFilter.isSpam, hpk, hmute, hamu, hwin]
  · intro hexp hf hp
    have hnw : ¬ (now - t0 < 600) := by omega
    constructor
    · simp [SpamFilter.isSpam, hpk, hmute, hf, hp, hnw, delMap]
    · simp [delMap]

/-- Witness for `C3_auto_mute_window`: identity "p" muted at instant 5,
message at instant 10 — spam with unchanged state and no fresh mute signal. -/
theorem C3_auto_mute_window_witness :
    c3Filter.isSpam hiMsg 10 0 = (true, c3Filter) ∧
      c3Filter.autoMuteUser "p" 10 = (false, c3Filter) :=
  (C3_auto_mute_window c3Filter "p" 5 hiMsg 10 0 (by decide)
    (by decide)).1 (by decide)

/-- C9: the excessive-caps rule is guarded — for content of byte length ≤ 20
or with no alphabetic character the rule never fires (so the ratio, whose
divisor is the alphabetic count, is never computed), and a message passing
every earlier rule is classified non-spam. -/
theorem C9_caps_guard (s : SpamFilter) (m : Message) (pk : String)
    (now : Nat) (ct : Int)
    (hpk : m.pubkey = some pk)
    (hlen : m.content.length ≤ 20 ∨ (m.content.filter isAlphaByte).length = 0)
    (hf : ¬ (ct + (s.max_future_time_seconds : Int) < m.timestamp))
    (hp : ¬ (m.timestamp < ct - 3600 * (s.max_past_time_hours : Int)))
    (hmute : s.auto_muted_users pk = none)
    (hkw : s.keywordHit m.content = false)
    (hfr : (s.checkMessageFrequency pk now).1 = false)
    (hdup : ((s.checkMessageFrequency pk now).2.checkDuplicateMessage
      m.content pk).1 = false) :
    capsHit m.content = false ∧ (s.isSpam m now ct).1 = false := by
  have hcaps : capsHit m.content = false := by
    unfold capsHit
    rcases hlen with h | h
    · have h20 : ¬ (20 < m.content.length) := by omega
      simp [h20]
    · have h0 : ¬ (0 < (m.content.filter isAlphaByte).length) := by omega
      simp [h0]
  refine ⟨hcaps, ?_⟩
  rw [isSpam_not_muted s m pk now ct hpk hf hp hmute,
    isSpamRest_clean s pk m now hkw hfr hdup hcaps]

/-- Witness for `C9_caps_guard`: a fresh filter and the two-byte message
"hi" — the caps rule does not fire and the message is not spam. -/
theorem C9_caps_guard_witness :
    capsHit hiMsg.content = false ∧
      (SpamFilter.new.isSpam hiMsg 0 0).1 = false :=
  C9_caps_guard SpamFilter.new hiMsg "p" 0 0 (by decide) (Or.inl (by decide))
    (by decide) (by decide) (by decide) (by decide) (by decide) (by decide)

theorem checkMessageFrequency_preserves (s : SpamFilter) (pk : String)
    (now : Nat) :
    (s.checkMessageFrequency pk now).2.recent_message_hashes =
      s.recent_message_hashes ∧
    (s.checkMessageFrequency pk now).2.auto_muted_users = s.auto_muted_users ∧
    (s.checkMessageFrequency pk now).2.spam_keywords = s.spam_keywords ∧
    (s.checkMessageFrequency pk now).2.duplicate_message_threshold =
      s.duplicate_message_threshold ∧
    (s.checkMessageFrequency pk now).2.max_messages_per_minute =
      s.max_messages_per_minute ∧
    (s.checkMessageFrequency pk now).2.max_future_time_seconds =
      s.max_future_time_seconds ∧
    (s.checkMessageFrequency pk now).2.max_past_time_hours =
      s.max_past_time_hours := by
  unfold SpamFilter.checkMessageFrequency
  split
  · split <;> exact ⟨rfl, rfl, rfl, rfl, rfl, rfl, rfl⟩
  · exact ⟨rfl, rfl, rfl, rfl, rfl, rfl, rfl⟩

theorem checkDuplicateMessage_preserves (s : SpamFilter) (content : List Nat)
    (pk : String) :
    (s.checkDuplicateMessage content pk).2.user_message_frequency =
      s.user_message_frequency ∧
    (s.checkDuplicateMessage content pk).2.auto_muted_users =
      s.auto_muted_users ∧
    (s.checkDuplicateMessage content pk).2.spam_keywords = s.spam_keywords ∧
    (s.checkDuplicateMessage content pk).2.duplicate_message_threshold =
      s.duplicate_message_threshold ∧
    (s.checkDuplicateMessage content pk).2.max_messages_per_minute =
      s.max_messages_per_minute ∧
    (s.checkDuplicateMessage content pk).2.max_future_time_seconds =
      s.max_future_time_seconds ∧
    (s.checkDuplicateMessage content pk).2.max_past_time_hours =
      s.max_past_time_hours := by
  cases hq : s.recent_message_hashes (simpleHash content) with
  | none =>
    rw [checkDuplicateMessage_none pk hq]
    exact ⟨rfl, rfl, rfl, rfl, rfl, rfl, rfl⟩
  | some p =>
    obtain ⟨c, epk⟩ := p
    by_cases he : epk = pk
    · subst he
      rw [checkDuplicateMessage_same hq]
      exact ⟨rfl, rfl, rfl, rfl, rfl, rfl, rfl⟩
    · have hd : s.checkDuplicateMessage content pk = (false, s) := by
        simp only [SpamFilter.checkDuplicateMessage]
        rw [hq]
        simp [he]
      rw [hd]
      exact ⟨rfl, rfl, rfl, rfl, rfl, rfl, rfl⟩

theorem checkMessageFrequency_false (s : SpamFilter) (pk : String) (now : Nat)
    (hb : ∀ c t, s.user_message_frequency pk = some (c, t) →
      ¬ (s.max_messages_per_minute < c + 1)) :
    (s.checkMessageFrequency pk now).1 = false := by
  cases hq : s.user_message_frequency pk with
  | none => rw [checkMessageFrequency_none now hq]
  | some p =>
    obtain ⟨c, t⟩ := p
    rw [checkMessageFrequency_some now hq]
    by_cases hw : now - t < 60
    · rw [if_pos hw]
      simp [hb c t hq]
    · rw [if_neg hw]

theorem checkMessageFrequency_count (s : SpamFilter) (pk : String) (now : Nat) :
    ∃ c' t', (s.checkMessageFrequency pk now).2.user_message_frequency pk =
      some (c', t') ∧
      c' ≤ (match s.user_message_frequency pk with
        | none => 0
        | some (c, _) => c) + 1 := by
  cases hq : s.user_message_frequency pk with
  | none =>
    rw [checkMessageFrequency_none now hq]
    exact ⟨1, now, by simp [updMap], Nat.le_refl 1⟩
  | some p =>
    obtain ⟨c, t⟩ := p
    rw [checkMessageFrequency_some now hq]
    by_cases hw : now - t < 60
    · rw [if_pos hw]
      exact ⟨c + 1, t, by simp [updMap], Nat.le_refl (c + 1)⟩
    · rw [if_neg hw]
      exact ⟨1, now, by simp [updMap], Nat.succ_le_succ (Nat.zero_le c)⟩

theorem checkDuplicateMessage_hash_none {s : SpamFilter} {content : List Nat}
    (pk : String) (h : s.recent_message_hashes (simpleHash content) = none) :
    (s.checkDuplicateMessage content pk).1 = false ∧
    (s.checkDuplicateMessage content pk).2.recent_message_hashes
      (simpleHash content) = some (1, pk) := by
  rw [checkDuplicateMessage_none pk h]
  exact ⟨rfl, by simp [updMap]⟩

theorem checkDuplicateMessage_hash_some {s : SpamFilter} {content : List Nat}
    {pk : String} {c : Nat}
    (h : s.recent_message_hashes (simpleHash content) = some (c, pk)) :
    (s.checkDuplicateMessage content pk).1 =
      decide (s.duplicate_message_threshold ≤ c + 1) ∧
    (s.checkDuplicateMessage content pk).2.recent_message_hashes
      (simpleHash content) = some (c + 1, pk) := by
  rw [checkDuplicateMessage_same h]
  exact ⟨rfl, by simp [updMap]⟩

theorem keywordHit_congr {s s' : SpamFilter}
    (h : s'.spam_keywords = s.spam_keywords) (content : List Nat) :
    s'.keywordHit content = s.keywordHit content := by
  unfold SpamFilter.keywordHit
  rw [h]

theorem isSpam_clean_round (s : SpamFilter) (m : Message) (pk : String)
    (now : Nat) (ct : Int)
    (hpk : m.pubkey = some pk)
    (hf : ¬ (ct + (s.max_future_time_seconds : Int) < m.timestamp))
    (hp : ¬ (m.timestamp < ct - 3600 * (s.max_past_time_hours : Int)))
    (hmute : s.auto_muted_users pk = none)
    (hkw : s.keywordHit m.content = false)
    (hcaps : capsHit m.content = false)
    (hfb : ∀ c t, s.user_message_frequency pk = some (c, t) →
      ¬ (s.max_messages_per_minute < c + 1))
    (hdupb : ((s.checkMessageFrequency pk now).2.checkDuplicateMessage
      m.content pk).1 = false) :
    s.isSpam m now ct =
      (false, ((s.checkMessageFrequency pk now).2.checkDuplicateMessage
        m.content pk).2) := by
  rw [isSpam_not_muted s m pk now ct hpk hf hp hmute,
    isSpamRest_clean s pk m now hkw
      (checkMessageFrequency_false s pk now hfb) hdupb hcaps]

/-- C4: starting from a fresh filter, an identity that sends the same
innocuous content three times has its first two messages classified non-spam,
the third classified spam by the duplicate-content rule (per-hash count
reaching the threshold 3 with matching owning pubkey), and is auto-muted from
the third call's instant, so it stays muted for any instant less than 600 s
later. -/
theorem C4_duplicate_auto_mute (pk : String) (m : Message)
    (n1 n2 n3 : Nat) (c1 c2 c3 : Int)
    (hpk : m.pubkey = some pk)
    (hf1 : ¬ (c1 + 300 < m.timestamp)) (hp1 : ¬ (m.timestamp < c1 - 86400))
    (hf2 : ¬ (c2 + 300 < m.timestamp)) (hp2 : ¬ (m.timestamp < c2 - 86400))
    (hf3 : ¬ (c3 + 300 < m.timestamp)) (hp3 : ¬ (m.timestamp < c3 - 86400))
    (hkw : SpamFilter.new.keywordHit m.content = false)
    (hcaps : capsHit m.content = false) :
    (SpamFilter.new.isSpam m n1 c1).1 = false ∧
    ((SpamFilter.new.isSpam m n1 c1).2.isSpam m n2 c2).1 = false ∧
    (((SpamFilter.new.isSpam m n1 c1).2.isSpam m n2 c2).2.isSpam
      m n3 c3).1 = true ∧
    ((((SpamFilter.new.isSpam m n1 c1).2.isSpam m n2 c2).2.isSpam
      m n3 c3).2.auto_muted_users pk = some n3) ∧
    (∀ now', now' - n3 < 600 →
      ((((SpamFilter.new.isSpam m n1 c1).2.isSpam m n2 c2).2.isSpam
        m n3 c3).2.isUserAutoMuted pk now') = true) := by
  -- round 1 from the fresh state
  have hfb0 : ∀ c t, SpamFilter.new.user_message_frequency pk = some (c, t) →
      ¬ (SpamFilter.new.max_messages_per_minute < c + 1) := by
    intro c t h
    exact Option.noConfusion h
  obtain ⟨q1h, q1a, q1k, q1d, q1m, q1f, q1p⟩ :=
    checkMessageFrequency_preserves SpamFilter.new pk n1
  have hh1 : (SpamFilter.new.checkMessageFrequency pk n1).2.recent_message_hashes
      (simpleHash m.content) = none := by rw [q1h]; rfl
  have hdn1 := checkDuplicateMessage_hash_none pk hh1
  have e1 := isSpam_clean_round SpamFilter.new m pk n1 c1 hpk hf1 hp1 rfl hkw
    hcaps hfb0 hdn1.1
  obtain ⟨d1u, d1a, d1k, d1d, d1m, d1f, d1p⟩ :=
    checkDuplicateMessage_preserves
      (SpamFilter.new.checkMessageFrequency pk n1).2 m.content pk
  obtain ⟨c1', t1', hfc1, hcb1⟩ := checkMessageFrequency_count SpamFilter.new pk n1
  have hcb1' : c1' ≤ 1 := hcb1
  -- facts about the state S1 after round 1
  have s1_auto : ((SpamFilter.new.checkMessageFrequency pk
      n1).2.checkDuplicateMessage m.content pk).2.auto_muted_users pk = none := by
    rw [d1a, q1a]
    rfl
  have s1_kw : ((SpamFilter.new.checkMessageFrequency pk
      n1).2.checkDuplicateMessage m.content pk).2.keywordHit m.content = false := by
    rw [keywordHit_congr (d1k.trans q1k) m.content]
    exact hkw
  have s1_freq : ((SpamFilter.new.checkMessageFrequency pk
      n1).2.checkDuplicateMessage m.content pk).2.user_message_frequency pk =
      some (c1', t1') := by
    rw [d1u]
    exact hfc1
  have s1_hash := hdn1.2
  have s1_max : ((SpamFilter.new.checkMessageFrequency pk
      n1).2.checkDuplicateMessage m.content pk).2.max_messages_per_minute = 15 := by
    rw [d1m, q1m]
    rfl
  have s1_thr : ((SpamFilter.new.checkMessageFrequency pk
      n1).2.checkDuplicateMessage m.content pk).2.duplicate_message_threshold = 3 := by
    rw [d1d, q1d]
    rfl
  have s1_fut : ((SpamFilter.new.checkMessageFrequency pk
      n1).2.checkDuplicateMessage m.content pk).2.max_future_time_seconds = 300 := by
    rw [d1f, q1f]
    rfl
  have s1_past : ((SpamFilter.new.checkMessageFrequency pk
      n1).2.checkDuplicateMessage m.content pk).2.max_past_time_hours = 24 := by
    rw [d1p, q1p]
    rfl
  -- round 2
  have hf2' : ¬ (c2 + (((SpamFilter.new.checkMessageFrequency pk
      n1).2.checkDuplicateMessage m.content
      pk).2.max_future_time_seconds : Int) < m.timestamp) := by
    rw [s1_fut]
    exact hf2
  have hp2' : ¬ (m.timestamp < c2 - 3600 * (((SpamFilter.new.checkMessageFrequency
      pk n1).2.checkDuplicateMessage m.content
      pk).2.max_past_time_hours : Int)) := by
    rw [s1_past]
    exact hp2
  have hfb1 : ∀ c t, ((SpamFilter.new.checkMessageFrequency pk
      n1).2.checkDuplicateMessage m.content pk).2.user_message_frequency pk =
      some (c, t) →
      ¬ (((SpamFilter.new.checkMessageFrequency pk n1).2.checkDuplicateMessage
        m.content pk).2.max_messages_per_minute < c + 1) := by
    intro c t hct
    rw [s1_freq] at hct
    cases hct
    rw [s1_max]
    omega
  obtain ⟨q2h, q2a, q2k, q2d, q2m, q2f, q2p⟩ :=
    checkMessageFrequency_preserves
      ((SpamFilter.new.checkMessageFrequency pk n1).2.checkDuplicateMessage
        m.content pk).2 pk n2
  have hh2 : ((((SpamFilter.new.checkMessageFrequency pk
      n1).2.checkDuplicateMessage m.content pk).2.checkMessageFrequency pk
      n2).2.recent_message_hashes (simpleHash m.content)) = some (1, pk) := by
    rw [q2h]
    exact s1_hash
  have hds2 := checkDuplicateMessage_hash_some hh2
  have hdupb1 : ((((SpamFilter.new.checkMessageFrequency pk
      n1).2.checkDuplicateMessage m.content pk).2.checkMessageFrequency pk
      n2).2.checkDuplicateMessage m.content pk).1 = false := by
    rw [hds2.1, q2d, s1_thr]
    rfl
  have e2 := isSpam_clean_round
    ((SpamFilter.new.checkMessageFrequency pk n1).2.checkDuplicateMessage
      m.content pk).2 m pk n2 c2 hpk hf2' hp2' s1_auto s1_kw hcaps hfb1 hdupb1
  obtain ⟨d2u, d2a, d2k, d2d, d2m, d2f, d2p⟩ :=
    checkDuplicateMessage_preserves
      (((SpamFilter.new.checkMessageFrequency pk n1).2.checkDuplicateMessage
        m.content pk).2.checkMessageFrequency pk n2).2 m.content pk
  obtain ⟨c2', t2', hfc2, hcb2⟩ := checkMessageFrequency_count
    ((SpamFilter.new.checkMessageFrequency pk n1).2.checkDuplicateMessage
      m.content pk).2 pk n2
  have hcb2' : c2' ≤ c1' + 1 := by
    rw [s1_freq] at hcb2
    exact hcb2
  have s2_auto : ((((SpamFilter.new.checkMessageFrequency pk
      n1).2.checkDuplicateMessage m.content pk).2.checkMessageFrequency pk
      n2).2.checkDuplicateMessage m.content pk).2.auto_muted_users pk = none := by
    rw [d2a, q2a]
    exact s1_auto
  have s2_kw : ((((SpamFilter.new.checkMessageFrequency pk
      n1).2.checkDuplicateMessage m.content pk).2.checkMessageFrequency pk
      n2).2.checkDuplicateMessage m.content pk).2.keywordHit m.content = false := by
    rw [keywordHit_congr (d2k.trans q2k) m.content]
    exact s1_kw
  have s2_freq : ((((SpamFilter.new.checkMessageFrequency pk
      n1).2.checkDuplicateMessage m.content pk).2.checkMessageFrequency pk
      n2).2.checkDuplicateMessage m.content pk).2.user_message_frequency pk =
      some (c2', t2') := by
    rw [d2u]
    exact hfc2
  have s2_hash := hds2.2
  have s2_max : ((((SpamFilter.new.checkMessageFrequency pk
      n1).2.checkDuplicateMessage m.content pk).2.checkMessageFrequency pk
      n2).2.checkDuplicateMessage m.content pk).2.max_messages_per_minute = 15 := by
    rw [d2m, q2m]
    exact s1_max
  have s2_thr : ((((SpamFilter.new.checkMessageFrequency pk
      n1).2.checkDuplicateMessage m.content pk).2.checkMessageFrequency pk
      n2).2.checkDuplicateMessage m.content pk).2.duplicate_message_threshold = 3 := by
    rw [d2d, q2d]
    exact s1_thr
  have s2_fut : ((((SpamFilter.new.checkMessageFrequency pk
      n1).2.checkDuplicateMessage m.content pk).2.checkMessageFrequency pk
      n2).2.checkDuplicateMessage m.content pk).2.max_future_time_seconds = 300 := by
    rw [d2f, q2f]
    exact s1_fut
  have s2_past : ((((SpamFilter.new.checkMessageFrequency pk
      n1).2.checkDuplicateMessage m.content pk).2.checkMessageFrequency pk
      n2).2.checkDuplicateMessage m.content pk).2.max_past_time_hours = 24 := by
    rw [d2p, q2p]
    exact s1_past
  -- round 3: the duplicate rule fires and the identity is muted
  have hf3' : ¬ (c3 + (((((SpamFilter.new.checkMessageFrequency pk
      n1).2.checkDuplicateMessage m.content pk).2.checkMessageFrequency pk
      n2).2.checkDuplicateMessage m.content
      pk).2.max_future_time_seconds : Int) < m.timestamp) := by
    rw [s2_fut]
    exact hf3
  have hp3' : ¬ (m.timestamp < c3 - 3600 *
      (((((SpamFilter.new.checkMessageFrequency pk n1).2.checkDuplicateMessage
      m.content pk).2.checkMessageFrequency pk n2).2.checkDuplicateMessage
      m.content pk).2.max_past_time_hours : Int)) := by
    rw [s2_past]
    exact hp3
  have hfb2 : ∀ c t, ((((SpamFilter.new.checkMessageFrequency pk
      n1).2.checkDuplicateMessage m.content pk).2.checkMessageFrequency pk
      n2).2.checkDuplicateMessage m.content pk).2.user_message_frequency pk =
      some (c, t) →
      ¬ (((((SpamFilter.new.checkMessageFrequency pk n1).2.checkDuplicateMessage
        m.content pk).2.checkMessageFrequency pk n2).2.checkDuplicateMessage
        m.content pk).2.max_messages_per_minute < c + 1) := by
    intro c t hct
    rw [s2_freq] at hct
    cases hct
    rw [s2_max]
    omega
  obtain ⟨q3h, q3a, q3k, q3d, q3m, q3f, q3p⟩ :=
    checkMessageFrequency_preserves
      ((((SpamFilter.new.checkMessageFrequency pk n1).2.checkDuplicateMessage
        m.content pk).2.checkMessageFrequency pk n2).2.checkDuplicateMessage
        m.content pk).2 pk n3
  have hh3 : ((((((SpamFilter.new.checkMessageFrequency pk
      n1).2.checkDuplicateMessage m.content pk).2.checkMessageFrequency pk
      n2).2.checkDuplicateMessage m.content pk).2.checkMessageFrequency pk
      n3).2.recent_message_hashes (simpleHash m.content)) = some (1 + 1, pk) := by
    rw [q3h]
    exact s2_hash
  have hds3 := checkDuplicateMessage_hash_some hh3
  have hdup3 : ((((((SpamFilter.new.checkMessageFrequency pk
      n1).2.checkDuplicateMessage m.content pk).2.checkMessageFrequency pk
      n2).2.checkDuplicateMessage m.content pk).2.checkMessageFrequency pk
      n3).2.checkDuplicateMessage m.content pk).1 = true := by
    rw [hds3.1, q3d, s2_thr]
    rfl
  have hfr3 := checkMessageFrequency_false
    ((((SpamFilter.new.checkMessageFrequency pk n1).2.checkDuplicateMessage
      m.content pk).2.checkMessageFrequency pk n2).2.checkDuplicateMessage
      m.content pk).2 pk n3 hfb2
  have e3 : ((((SpamFilter.new.checkMessageFrequency pk
      n1).2.checkDuplicateMessage m.content pk).2.checkMessageFrequency pk
      n2).2.checkDuplicateMessage m.content pk).2.isSpam m n3 c3 =
      (true, (((((((SpamFilter.new.checkMessageFrequency pk
        n1).2.checkDuplicateMessage m.content pk).2.checkMessageFrequency pk
        n2).2.checkDuplicateMessage m.content pk).2.checkMessageFrequency pk
        n3).2.checkDuplicateMessage m.content pk).2.autoMuteUser pk n3).2) := by
    rw [isSpam_not_muted _ m pk n3 c3 hpk hf3' hp3' s2_auto,
      isSpamRest_dup_spam _ pk m n3 s2_kw hfr3 hdup3]
  obtain ⟨d3u, d3a, d3k, d3d, d3m, d3f, d3p⟩ :=
    checkDuplicateMessage_preserves
      (((((SpamFilter.new.checkMessageFrequency pk n1).2.checkDuplicateMessage
        m.content pk).2.checkMessageFrequency pk n2).2.checkDuplicateMessage
        m.content pk).2.checkMessageFrequency pk n3).2 m.content pk
  have hXauto : ((((((SpamFilter.new.checkMessageFrequency pk
      n1).2.checkDuplicateMessage m.content pk).2.checkMessageFrequency pk
      n2).2.checkDuplicateMessage m.content pk).2.checkMessageFrequency pk
      n3).2.checkDuplicateMessage m.content pk).2.auto_muted_users pk = none := by
    rw [d3a, q3a]
    exact s2_auto
  have hmute3 := autoMuteUser_new n3 hXauto
  have hSFauto : (((((((SpamFilter.new.checkMessageFrequency pk
      n1).2.checkDuplicateMessage m.content pk).2.checkMessageFrequency pk
      n2).2.checkDuplicateMessage m.content pk).2.checkMessageFrequency pk
      n3).2.checkDuplicateMessage m.content pk).2.autoMuteUser pk
      n3).2.auto_muted_users pk = some n3 := by
    rw [hmute3]
    simp [updMap]
  refine ⟨?_, ?_, ?_, ?_, ?_⟩
  · simp only [e1]
  · simp only [e1, e2]
  · simp only [e1, e2, e3]
  · simp only [e1, e2, e3]
    exact hSFauto
  · intro now' hn
    simp only [e1, e2, e3]
    simp [SpamFilter.isUserAutoMuted, hSFauto, hn]

/-- Witness for `C4_duplicate_auto_mute`: identity "p" sending "hi" three
times from a fresh filter at instants 0, 1, 2. -/
theorem C4_duplicate_auto_mute_witness :
    (SpamFilter.new.isSpam hiMsg 0 0).1 = false ∧
    ((SpamFilter.new.isSpam hiMsg 0 0).2.isSpam hiMsg 1 0).1 = false ∧
    (((SpamFilter.new.isSpam hiMsg 0 0).2.isSpam hiMsg 1 0).2.isSpam
      hiMsg 2 0).1 = true ∧
    ((((SpamFilter.new.isSpam hiMsg 0 0).2.isSpam hiMsg 1 0).2.isSpam
      hiMsg 2 0).2.auto_muted_users "p" = some 2) := by
  obtain ⟨h1, h2, h3, h4, _⟩ := C4_duplicate_auto_mute "p" hiMsg 0 1 2 0 0 0
    (by decide) (by decide) (by decide) (by decide) (by decide) (by decide)
    (by decide) (by decide) (by decide)
  exact ⟨h1, h2, h3, h4⟩

/-! ### Claim theorems: geo relay directory (C5, C10) -/

/-- C5 as stated is false: a failed fetch attempt does not record the attempt
time, so with no prior successful fetch a failed attempt at instant 0 is
followed by another remote fetch attempt at instant 1, well inside the same
24-hour period. -/
theorem C5_fetch_retry_counterexample :
    (fetchAndUpdate { relays := [], last_fetch := none } 0 none).2 = true ∧
    (fetchAndUpdate (fetchAndUpdate { relays := [], last_fetch := none }
      0 none).1 1 none).2 = true ∧
    ((1 : Nat) - 0 < 86400) := by
  decide

/-- C5 (amended): the 24-hour schedule is measured from the last *successful*
fetch: after a successful fetch at instant `now`, every call less than 86400 s
later performs no fetch and leaves the state unchanged; a failed attempt
leaves the state (catalog and last_fetch) unchanged, so it does not delay —
nor is delayed by — the schedule, and may be retried on the next call. -/
theorem C5_fetch_schedule (st : GeoState) (now : Nat) (rs : List RelayInfo)
    (h : shouldFetch st now = true) :
    (fetchAndUpdate st now (some rs)).1.last_fetch = some now ∧
    (∀ now' r, now' - now < 86400 →
      fetchAndUpdate (fetchAndUpdate st now (some rs)).1 now' r =
        ((fetchAndUpdate st now (some rs)).1, false)) ∧
    fetchAndUpdate st now none = (st, true) := by
  have hsucc : fetchAndUpdate st now (some rs) =
      ({ relays := rs, last_fetch := some now }, true) := by
    unfold fetchAndUpdate
    rw [if_pos h]
  refine ⟨by rw [hsucc], ?_, ?_⟩
  · intro now' r hlt
    rw [hsucc]
    have hn : ¬ (86400 ≤ now' - now) := by omega
    simp [fetchAndUpdate, shouldFetch, hn]
  · unfold fetchAndUpdate
    rw [if_pos h]

/-- Witness for `C5_fetch_schedule` at the never-fetched initial state. -/
theorem C5_fetch_schedule_witness :
    (fetchAndUpdate { relays := [], last_fetch := none } 0
      (some [⟨"r"⟩])).1.last_fetch = some 0 ∧
    fetchAndUpdate { relays := [], last_fetch := none } 0 none =
      ({ relays := [], last_fetch := none }, true) := by
  obtain ⟨h1, _, h3⟩ := C5_fetch_schedule { relays := [], last_fetch := none }
    0 [⟨"r"⟩] (by decide)
  exact ⟨h1, h3⟩

/-- C10 as stated is false in one corner: with `count = 0` the empty-catalog
branch returns the empty list, not a non-empty fallback selection. -/
theorem C10_empty_catalog_counterexample :
    closestRelaysToCoords (fun _ => (0 : Int)) [] 0 = [] := rfl

/-- C10 (amended): with an empty catalog and `count ≥ 1`,
`closest_relays_to_coords` returns the first `count` entries of the
hard-coded fallback list — bare host strings in fallback order, without the
`wss://` scheme — and in particular a non-empty list; for `count = 0` it
returns the empty list. -/
theorem C10_empty_catalog_fallback (dist : RelayInfo → Int) (k : Nat)
    (hk : 1 ≤ k) :
    closestRelaysToCoords dist [] k = (fallbackRelays.map RelayInfo.url).take k ∧
    closestRelaysToCoords dist [] k ≠ [] := by
  have he : closestRelaysToCoords dist [] k =
      (fallbackRelays.map RelayInfo.url).take k := by
    simp [closestRelaysToCoords]
  refine ⟨he, ?_⟩
  rw [he]
  cases k with
  | zero => omega
  | succ k' => simp [fallbackRelays]

/-- Witness for `C10_empty_catalog_fallback` at `count = 1`. -/
theorem C10_empty_catalog_fallback_witness :
    closestRelaysToCoords (fun _ => (0 : Int)) [] 1 = ["relay.damus.io"] ∧
    closestRelaysToCoords (fun _ => (0 : Int)) [] 1 ≠ [] := by
  obtain ⟨h1, h2⟩ := C10_empty_catalog_fallback (fun _ => (0 : Int)) 1 (by decide)
  exact ⟨h1.trans (by decide), h2⟩

/-! ### Claim theorems: channel manager (C8) -/

/-- C8: `list_channels` returns exactly the joined channel names and
`list_all_channels` every name paired with its joined flag, both sorted by
`last_activity` descending (under the `Option` order of Rust's derived `Ord`,
`None` least); as pure functions of the manager state (association list,
whose order models the map's iteration order, with Rust's stable sort_by
modelled by the stable `mergeSort`), repeated invocations on the same state
are identical, so tie-breaking is deterministic. -/
theorem C8_list_channels_sorted (channels : List (String × Channel)) :
    (listChannels channels).Pairwise
      (fun a b => optLe (lookupActivity channels b)
        (lookupActivity channels a) = true) ∧
    (∀ x, x ∈ listChannels channels ↔
      ∃ c, (x, c) ∈ channels ∧ c.is_joined = true) ∧
    (listAllChannels channels).Pairwise
      (fun a b => optLe (lookupActivity channels b.1)
        (lookupActivity channels a.1) = true) ∧
    (∀ x j, (x, j) ∈ listAllChannels channels ↔
      ∃ c, (x, c) ∈ channels ∧ c.is_joined = j) := by
  have htrans : ∀ a b c : Option Int,
      optLe a b = true → optLe b c = true → optLe a c = true := by
    intro a b c hab hbc
    cases a <;> cases b <;> cases c <;> simp [optLe] at * <;> omega
  have htot : ∀ a b : Option Int, optLe a b || optLe b a := by
    intro a b
    cases a <;> cases b <;> simp [optLe] <;> omega
  refine ⟨?_, ?_, ?_, ?_⟩
  · unfold listChannels
    apply List.sorted_mergeSort
    · intro a b c hab hbc
      exact htrans _ _ _ hbc hab
    · intro a b
      exact htot _ _
  · intro x
    constructor
    · intro hx
      rw [listChannels, List.mem_mergeSort] at hx
      obtain ⟨a, ha, rfl⟩ := List.mem_map.mp hx
      obtain ⟨ha1, ha2⟩ := List.mem_filter.mp ha
      exact ⟨a.2, ha1, ha2⟩
    · rintro ⟨c, hc, hj⟩
      rw [listChannels, List.mem_mergeSort]
      exact List.mem_map.mpr ⟨(x, c), List.mem_filter.mpr ⟨hc, hj⟩, rfl⟩
  · unfold listAllChannels
    apply List.sorted_mergeSort
    · intro a b c hab hbc
      exact htrans _ _ _ hbc hab
    · intro a b
      exact htot _ _
  · intro x j
    constructor
    · intro hx
      rw [listAllChannels, List.mem_mergeSort] at hx
      obtain ⟨a, ha, heq⟩ := List.mem_map.mp hx
      cases heq
      exact ⟨a.2, ha, rfl⟩
    · rintro ⟨c, hc, hj⟩
      rw [listAllChannels, List.mem_mergeSort]
      exact List.mem_map.mpr ⟨(x, c), hc, by rw [hj]⟩
